import Mathlib

/-!
Verification of the currency-impact-analyzer core: a shallow embedding of
`src/analysis.py`, `src/alert_system.py` and `src/data_fetcher.py`.

Modelling conventions:
* IEEE floats are modelled as exact rationals extended with signed infinity
  and NaN (`PVal`); float rounding is not modelled, special values are.
* A pandas `DataFrame` with a date index is a `Frame`: a column-name list plus
  rows of `(timestamp, cells)`; dates are ordinal numbers (the source formats
  dates with `strftime('%Y-%m-%d')`, which is strictly monotone, so comparing
  formatted strings agrees with comparing ordinals).
* `pct_change` is modelled with `fill_method=None` (the current pandas
  default): missing values propagate as NaN rather than being forward-filled.
* External collaborators (scipy's `pearsonr`, the SMTP transport, numpy's
  normal sampler and `exp`, Python's salted string `hash`) are parameters of
  the functions that call them.
-/

namespace CurrencyImpact

/-- A float value: finite rational, signed infinity (`inf true` is `+inf`), or NaN. -/
inductive PVal where
  | fin (q : ℚ)
  | inf (pos : Bool)
  | nan
deriving DecidableEq, Repr

/-- `numpy.isnan`. -/
def PVal.isnan : PVal → Bool
  | .nan => true
  | _ => false

/-- Finiteness of a float value. -/
def PVal.isFinite : PVal → Bool
  | .fin _ => true
  | _ => false

/-- IEEE division `a / b` as performed elementwise by pandas; the zero produced
by exact rational arithmetic is `+0`. -/
def PVal.div : PVal → PVal → PVal
  | .nan, _ => .nan
  | _, .nan => .nan
  | .fin a, .fin b =>
      if b = 0 then (if a = 0 then .nan else .inf (decide (0 < a))) else .fin (a / b)
  | .fin _, .inf _ => .fin 0
  | .inf s, .fin b => .inf (s == decide (0 ≤ b))
  | .inf _, .inf _ => .nan

/-- Subtraction of a finite constant, with IEEE special values. -/
def PVal.subQ : PVal → ℚ → PVal
  | .fin a, q => .fin (a - q)
  | .inf s, _ => .inf s
  | .nan, _ => .nan

/-- Multiplication by a finite constant, with IEEE special values. -/
def PVal.mulQ : PVal → ℚ → PVal
  | .fin a, q => .fin (a * q)
  | .inf s, q => if q = 0 then .nan else .inf (s == decide (0 < q))
  | .nan, _ => .nan

/-- One cell of `price_data.pct_change() * 100`: pandas computes
`cur / prev - 1` (then the caller scales by 100). -/
def pctCell (prev cur : PVal) : PVal := ((cur.div prev).subQ 1).mulQ 100

/-- A pandas `DataFrame` with a date index: column names plus rows of
`(timestamp, cells)`, cell `j` of a row belonging to column `j`. -/
structure Frame where
  cols : List String
  rows : List (Nat × List PVal)
deriving DecidableEq, Repr

/-- `DataFrame.empty`: true when either axis has length zero. -/
def Frame.isEmpty (f : Frame) : Bool := f.rows.isEmpty || f.cols.isEmpty

/-- `pd.DataFrame()`. -/
def emptyFrame : Frame := ⟨[], []⟩

/-- Well-formedness: each row has one cell per column, and the date index is
strictly increasing (as pandas date indexes from the fetcher are). -/
def Frame.WF (f : Frame) : Prop :=
  (∀ r ∈ f.rows, r.2.length = f.cols.length) ∧ (f.rows.map (·.1)).Pairwise (· < ·)

instance (f : Frame) : Decidable f.WF := by
  unfold Frame.WF; infer_instance

/-- The rows of `pct_change` after the first: each output row is computed
cellwise from its predecessor row. -/
def pctBody : List PVal → List (Nat × List PVal) → List (Nat × List PVal)
  | _, [] => []
  | prev, (t, cur) :: rest => (t, List.zipWith pctCell prev cur) :: pctBody cur rest

/-- All rows of `price_data.pct_change() * 100`: the first row is all-NaN. -/
def pctAll : List (Nat × List PVal) → List (Nat × List PVal)
  | [] => []
  | (t, v) :: rest => (t, v.map fun _ => PVal.nan) :: pctBody v rest

/-- `DataFrame.dropna()`: drop every row containing a NaN (infinities stay). -/
def dropnaRows (rows : List (Nat × List PVal)) : List (Nat × List PVal) :=
  rows.filter fun r => !(r.2.any PVal.isnan)

/-- `src/analysis.py calculate_percentage_changes`: `None` or empty input
yields an empty frame; otherwise `pct_change() * 100` followed by `dropna()`.
Total by construction, mirroring that no path of the Python function raises
on a well-typed frame. -/
def calculate_percentage_changes : Option Frame → Frame
  | none => emptyFrame
  | some f =>
      if f.isEmpty then emptyFrame
      else ⟨f.cols, dropnaRows (pctAll f.rows)⟩

/-- One alert dictionary produced by `check_alerts`. -/
structure AlertRec where
  currency : String
  date : Nat
  change : PVal
  direction : String
deriving DecidableEq, Repr

/-- `np.abs(v) > th` with IEEE comparison semantics (false on NaN). -/
def PVal.absGt : PVal → ℚ → Bool
  | .nan, _ => false
  | .inf _, _ => true
  | .fin a, th => decide (th < |a|)

/-- `v > 0` with IEEE comparison semantics (false on NaN). -/
def PVal.gtZero : PVal → Bool
  | .nan => false
  | .inf s => s
  | .fin a => decide (0 < a)

/-- The cell of column number `j` in a row. -/
def cellAt (j : Nat) (r : Nat × List PVal) : PVal := r.2.getD j PVal.nan

/-- The alert list before sorting: for each currency column in order, the rows
whose absolute change strictly exceeds the threshold, in index order. -/
def preAlerts (f : Frame) (th : ℚ) : List AlertRec :=
  f.cols.enum.flatMap fun jc =>
    f.rows.filterMap fun r =>
      let v := cellAt jc.1 r
      if v.absGt th then
        some ⟨jc.2, r.1, v, if v.gtZero then "increase" else "decrease"⟩
      else none

/-- Sort key of `alerts.sort(key=..., reverse=True)`: descending by date. -/
def dateDesc (a b : AlertRec) : Bool := decide (b.date ≤ a.date)

/-- `src/alert_system.py check_alerts`: `None` or empty input yields `[]`;
otherwise the threshold scan followed by a stable descending sort by date
(Python's `list.sort` is stable, as is `List.mergeSort`). -/
def check_alerts : Option Frame → ℚ → List AlertRec
  | none, _ => []
  | some f, th =>
      if f.isEmpty then []
      else List.mergeSort (preAlerts f th) dateDesc

/-- Claim C3's description of the scan, written from the spec: for each
instrument column and each row whose value is defined (non-NaN), emit a record
exactly when `|value| > threshold` strictly, carrying the instrument, the
row's date, the signed value, and the direction derived from its sign. -/
def alertScanSpec (f : Frame) (th : ℚ) : List AlertRec :=
  f.cols.enum.flatMap fun jc =>
    f.rows.filterMap fun r =>
      match cellAt jc.1 r with
      | .nan => none
      | v =>
        if v.absGt th then
          some ⟨jc.2, r.1, v, if v.gtZero then "increase" else "decrease"⟩
        else none

/-- Claim C2's formula, written from the spec: entry `(i, c)` for `i ≥ 1` is
`(price[i] - price[i-1]) / price[i-1] * 100`. -/
def pctSpecCell : PVal → PVal → PVal
  | .fin p, .fin c => .fin ((c - p) / p * 100)
  | _, _ => .nan

/-- Claim C2's expected table, written from the spec: row 0 dropped, each
remaining row computed from consecutive input rows. -/
def pctExpected (f : Frame) : List (Nat × List PVal) :=
  (f.rows.zip f.rows.tail).map fun rr => (rr.2.1, List.zipWith pctSpecCell rr.1.2 rr.2.2)

/-- A cell holding a finite nonzero value. -/
def PVal.finNZ : PVal → Bool
  | .fin q => decide (q ≠ 0)
  | _ => false

/-- A percent-change series: one column of a percent-change table. -/
abbrev Series := List (Nat × PVal)

/-- `series1.align(series2, join='inner')`, zipped: the timestamps present in
both series, in `series1` order, with both values. -/
def alignInner (s1 s2 : Series) : List (Nat × PVal × PVal) :=
  s1.filterMap fun tv => (List.lookup tv.1 s2).map fun w => (tv.1, tv.2, w)

/-- The mask `~(np.isnan(s1) | np.isnan(s2))` applied to the aligned pairs. -/
def corrKept (s1 s2 : Series) : List (Nat × PVal × PVal) :=
  (alignInner s1 s2).filter fun x => !(x.2.1.isnan || x.2.2.isnan)

/-- `src/analysis.py calculate_correlation`, up to the external scipy call:
`none` models the `(nan, nan)` branch taken when at most one masked pair
remains; `some ps` models delegating the remaining value pairs `ps` to
`scipy.stats.pearsonr`. -/
def calculate_correlation (s1 s2 : Series) : Option (List (PVal × PVal)) :=
  let kept := corrKept s1 s2
  if 1 < kept.length then some (kept.map fun x => x.2) else none

/-- Claim C5's filtering rule, written from the spec: keep an aligned pair
only when both values are finite (non-finite includes infinities). -/
def alignedFinite (s1 s2 : Series) : List (Nat × PVal × PVal) :=
  (alignInner s1 s2).filter fun x => x.2.1.isFinite && x.2.2.isFinite

/-- `np.abs` of a float value. -/
def PVal.absV : PVal → PVal
  | .fin q => .fin |q|
  | .inf _ => .inf true
  | .nan => .nan

/-- `v >= q` with IEEE comparison semantics (false on NaN). -/
def PVal.geQ : PVal → ℚ → Bool
  | .fin a, q => decide (q ≤ a)
  | .inf s, _ => s
  | .nan, _ => false

/-- `src/analysis.py get_correlation_label`. -/
def get_correlation_label (corr : PVal) : String × String :=
  if corr.isnan then ("Insufficient data", "gray")
  else
    let abs_corr := corr.absV
    let sc : String × String :=
      if abs_corr.geQ (7/10) then ("Strong", if corr.gtZero then "green" else "red")
      else if abs_corr.geQ (3/10) then ("Moderate", if corr.gtZero then "blue" else "orange")
      else ("Weak", "gray")
    let direction := if corr.gtZero then "Positive" else "Negative"
    (sc.1 ++ " " ++ direction, sc.2)

/-! ### Notifier (`src/alert_system.py send_email_alert`) -/

/-- The alert dictionary handed to the notifier. `threshold?` models the
presence of a `'threshold'` key: records produced by `check_alerts` do not
carry one, so for them it is `none`. -/
structure AlertDict where
  currency : String
  date : String
  change : ℚ
  direction : String
  threshold? : Option ℚ
deriving DecidableEq, Repr

/-- The four environment variables read by the notifier (`os.getenv`). -/
structure SmtpEnv where
  server : Option String
  port : Option String
  username : Option String
  password : Option String
deriving DecidableEq, Repr

/-- Python's `int(str)`: optional surrounding whitespace, optional sign, then
ASCII decimal digits; anything else raises `ValueError` (modelled as `none`). -/
def pyInt? (s : String) : Option Int :=
  let t := ((s.data.dropWhile Char.isWhitespace).reverse.dropWhile Char.isWhitespace).reverse
  let neg := t.head? == some '-'
  let digits := if t.head? == some '-' || t.head? == some '+' then t.tail else t
  if digits.length ≠ 0 && digits.all Char.isDigit then
    let n : Int := digits.foldl (fun a c => a * 10 + ((c.toNat : Int) - 48)) 0
    some (if neg then -n else n)
  else none

/-- Round half to even, as Python's fixed-point formatting does. -/
def roundHalfEven (x : ℚ) : ℤ :=
  let f := ⌊x⌋
  let r := x - f
  if r < 1/2 then f else if 1/2 < r then f + 1 else if f % 2 = 0 then f else f + 1

/-- Python `f"{x:.2f}"` for the nonnegative magnitudes the notifier formats. -/
def fmt2 (q : ℚ) : String :=
  let n := (roundHalfEven (q * 100)).toNat
  toString (n / 100) ++ "." ++ (if n % 100 < 10 then "0" else "") ++ toString (n % 100)

/-- Python `str` of the threshold float inside the f-string body; the exact
float repr algorithm is abstracted by the rational's decimal-free rendering. -/
def pyFloatStr (q : ℚ) : String := toString q

/-- The rendered subject line. -/
def emailSubject (a : AlertDict) : String :=
  "Currency Alert: " ++ (a.currency ++ (" " ++ (a.direction ++ (" by " ++ (fmt2 |a.change| ++ "%")))))

/-- The rendered HTML body. -/
def emailBody (a : AlertDict) (th : ℚ) : String :=
  "\n        <html>\n        <body>\n            <h2>Currency Movement Alert</h2>\n            <p>This is an automated alert from the Currency Impact Analyzer.</p>\n            <p><strong>" ++
    (a.currency ++
      ("</strong> has " ++
        (a.direction ++
          ("d by " ++
            (fmt2 |a.change| ++
              ("% on " ++
                (a.date ++
                  (".</p>\n            <p>This movement exceeds your configured threshold of " ++
                    (pyFloatStr th ++
                      "%.</p>\n            <hr>\n            <p>To adjust your alert settings, please visit the application.</p>\n        </body>\n        </html>\n        ")))))))))

/-- The full rendered message (subject plus attached body). -/
def emailMessage (a : AlertDict) (th : ℚ) : String :=
  emailSubject a ++ ("\n" ++ emailBody a th)

/-- `src/alert_system.py send_email_alert`. `transport recipient message`
models the `smtplib` session (`error` = transport exception). The result
`Except.error e` models a Python exception escaping the function; `ok (b, msgs)`
models returning `b` after emitting the streamlit diagnostics `msgs`.
Note the port is parsed *before* the `try` block, and the body reads
`alert_data['threshold']` *inside* it (a missing key raises `KeyError`,
caught by `except Exception`). -/
def send_email_alert (env : SmtpEnv) (transport : String → String → Except String Unit)
    (alert : AlertDict) (recipient : String) : Except String (Bool × List String) :=
  if recipient = "" then .ok (false, [])
  else
    let smtp_server := env.server.getD ""
    match pyInt? (env.port.getD "587") with
    | none => .error "ValueError: invalid literal for int() with base 10"
    | some smtp_port =>
      let smtp_username := env.username.getD ""
      let smtp_password := env.password.getD ""
      if smtp_server = "" ∨ smtp_port = 0 ∨ smtp_username = "" ∨ smtp_password = "" then
        .ok (false, ["Email alerts are disabled due to missing SMTP configuration."])
      else
        match alert.threshold? with
        | none => .ok (false, ["Failed to send email alert: 'threshold'"])
        | some th =>
          match transport recipient (emailMessage alert th) with
          | .ok _ => .ok (true, [])
          | .error e => .ok (false, ["Failed to send email alert: " ++ e])

/-- `strContains s sub`: `sub` occurs as a contiguous substring of `s`. -/
def strContains (s sub : String) : Prop := ∃ a b, s = a ++ (sub ++ b)

/-! ### Synthetic fallback generator (`src/data_fetcher.py`) -/

/-- Python's `"sub" in s` substring test. -/
def strIn (sub s : String) : Bool :=
  (List.range (s.data.length + 1)).any fun i => (s.data.drop i).take sub.data.length == sub.data

/-- The process-wide `numpy.random` state: the last seed set and the number of
draw calls made since. `np.random.seed` resets it; every draw advances it. -/
structure NpRng where
  seed : Nat
  draws : Nat
deriving DecidableEq, Repr

/-- The external normal sampler: `(seed, draw index, mean, std, size)` to the
list of samples. Kept as a parameter (numpy's Mersenne Twister is external),
the essential property being that draws are a function of seed and position. -/
abbrev NormalFn := Nat → Nat → ℚ → ℚ → Nat → List ℚ

/-- `np.random.seed(s)`. -/
def npSeed (s : Nat) : NpRng := ⟨s, 0⟩

/-- `np.random.normal(mean, vol, n)` against the global state. -/
def npNormal (nf : NormalFn) (mean vol : ℚ) (n : Nat) (g : NpRng) : List ℚ × NpRng :=
  (nf g.seed g.draws mean vol n, ⟨g.seed, g.draws + 1⟩)

/-- Running sums (`np.cumsum`). -/
def cumsumFrom (acc : ℚ) : List ℚ → List ℚ
  | [] => []
  | x :: xs => (acc + x) :: cumsumFrom (acc + x) xs

/-- `np.cumsum`. -/
def cumsum (l : List ℚ) : List ℚ := cumsumFrom 0 l

/-- `np.linspace a b n` (endpoint inclusive). -/
def linspace (a b : ℚ) (n : Nat) : List ℚ :=
  if n = 1 then [a]
  else (List.range n).map fun i => a + (b - a) * i / ((n : ℚ) - 1)

/-- The seed, drift and volatility constants of one synthetic random walk. -/
structure WalkCfg where
  seed : Nat
  mean : ℚ
  vol : ℚ
  drift : Option ℚ
deriving DecidableEq, Repr

/-- Currency no-data branch: `np.random.seed(42)`, volatility `0.02`, linear
drift up to `0.05`. -/
def rateNoDataCfg : WalkCfg := ⟨42, 0, 1/50, some (1/20)⟩

/-- Currency error branch: `np.random.seed(hash(pair) % 100)`, volatility
`0.015`, linear drift up to `0.03`. -/
def rateErrCfg (pyHash : String → Nat) (pair : String) : WalkCfg :=
  ⟨pyHash pair % 100, 0, 3/200, some (3/100)⟩

/-- Stock no-data branch: `np.random.seed(hash(ticker) % 100)`, mean `0.0005`,
volatility `0.03`, no drift multiplier. -/
def stockNoDataCfg (pyHash : String → Nat) (tick : String) : WalkCfg :=
  ⟨pyHash tick % 100, 1/2000, 3/100, none⟩

/-- Stock error branch: `np.random.seed((hash(ticker) + 1) % 100)`, mean
`-0.0001`, volatility `0.025`, no drift multiplier. -/
def stockErrCfg (pyHash : String → Nat) (tick : String) : WalkCfg :=
  ⟨(pyHash tick + 1) % 100, -(1/10000), 1/40, none⟩

/-- One synthetic random walk: seed the global stream, draw `n` normal
log-returns, cumulate, exponentiate (`expFn` models `np.exp`), scale by the
base value and optionally by the linear drift multiplier. -/
def runWalk (nf : NormalFn) (expFn : ℚ → ℚ) (cfg : WalkCfg) (base : ℚ) (n : Nat)
    (_g : NpRng) : List ℚ × NpRng :=
  let g1 := npSeed cfg.seed
  let (dr, g2) := npNormal nf cfg.mean cfg.vol n g1
  let cr := (cumsum dr).map expFn
  let vals :=
    match cfg.drift with
    | none => cr.map fun v => base * v
    | some e => (cr.zip (linspace 0 e n)).map fun vl => base * vl.1 * (1 + vl.2)
  (vals, g2)

/-- The base-value table of the currency no-data branch (default 75). -/
def baseRateNoData (pair : String) : ℚ :=
  if strIn "USD-INR" pair then 83 else if strIn "EUR-INR" pair then 90
  else if strIn "JPY-INR" pair then 11/20 else if strIn "CHF-INR" pair then 93 else 75

/-- The base-value table of the currency error branch (default 80). -/
def baseRateErr (pair : String) : ℚ :=
  if strIn "USD-INR" pair then 83 else if strIn "EUR-INR" pair then 90
  else if strIn "JPY-INR" pair then 11/20 else if strIn "CHF-INR" pair then 93 else 80

/-- The base-value table of both stock branches (default 1000). -/
def baseStock (tick : String) : ℚ :=
  if strIn "TCS.NS" tick then 3500 else if strIn "INFY.NS" tick then 1500
  else if strIn "WIPRO.NS" tick then 400 else if strIn "HCLTECH.NS" tick then 1100
  else if strIn "TECHM.NS" tick then 1200 else if strIn "LTTS.NS" tick then 3800
  else if strIn "MINDTREE.NS" tick then 3000 else if strIn "MPHASIS.NS" tick then 2200
  else 1000

/-- The accumulating `all_data` frame of the fetchers. -/
structure PdFrame where
  index : List Nat
  colNames : List String
  colVals : List (List PVal)
deriving DecidableEq, Repr

/-- `all_data.empty`. -/
def PdFrame.isEmpty (d : PdFrame) : Bool := d.index.isEmpty || d.colNames.isEmpty

/-- `all_data[name] = vals`. -/
def PdFrame.setCol (d : PdFrame) (name : String) (vals : List PVal) : PdFrame :=
  if name ∈ d.colNames then
    ⟨d.index, d.colNames, (d.colNames.zip d.colVals).map fun nv => if nv.1 = name then vals else nv.2⟩
  else ⟨d.index, d.colNames ++ [name], d.colVals ++ [vals]⟩

/-- The outcome of `yf.download` for one instrument: a (possibly empty) close
series, or a raised exception. -/
inductive FetchOutcome where
  | ok (series : List (Nat × ℚ))
  | err
deriving DecidableEq, Repr

/-- One iteration of the `get_exchange_rates` loop. -/
def ratesStep (nf : NormalFn) (expFn : ℚ → ℚ) (pyHash : String → Nat)
    (dateRange : List Nat) (fetch : String → FetchOutcome)
    (acc : PdFrame × NpRng) (pair : String) : PdFrame × NpRng :=
  let d := acc.1
  let g := acc.2
  match fetch pair with
  | .ok s =>
      if s.isEmpty then
        let d1 := if d.isEmpty then ⟨dateRange, [], []⟩ else d
        let w := runWalk nf expFn rateNoDataCfg (baseRateNoData pair) d1.index.length g
        (d1.setCol pair (w.1.map PVal.fin), w.2)
      else
        let d1 := if d.isEmpty then ⟨s.map (·.1), [], []⟩ else d
        (d1.setCol pair (d1.index.map fun t =>
          match List.lookup t s with
          | some v => PVal.fin v
          | none => PVal.nan), g)
  | .err =>
      let d1 := if d.isEmpty then ⟨dateRange, [], []⟩ else d
      let w := runWalk nf expFn (rateErrCfg pyHash pair) (baseRateErr pair) d1.index.length g
      (d1.setCol pair (w.1.map PVal.fin), w.2)

/-- `src/data_fetcher.py get_exchange_rates`, threading the process-wide
`numpy.random` state through the per-pair loop. -/
def get_exchange_rates (nf : NormalFn) (expFn : ℚ → ℚ) (pyHash : String → Nat)
    (fetch : String → FetchOutcome) (pairs : List String) (dateRange : List Nat)
    (g : NpRng) : PdFrame × NpRng :=
  pairs.foldl (ratesStep nf expFn pyHash dateRange fetch) (⟨[], [], []⟩, g)

/-- One iteration of the `get_stock_prices` loop. -/
def stocksStep (nf : NormalFn) (expFn : ℚ → ℚ) (pyHash : String → Nat)
    (dateRange : List Nat) (fetch : String → FetchOutcome)
    (acc : PdFrame × NpRng) (tick : String) : PdFrame × NpRng :=
  let d := acc.1
  let g := acc.2
  match fetch tick with
  | .ok s =>
      if s.isEmpty then
        let d1 := if d.isEmpty then ⟨dateRange, [], []⟩ else d
        let w := runWalk nf expFn (stockNoDataCfg pyHash tick) (baseStock tick) d1.index.length g
        (d1.setCol tick (w.1.map PVal.fin), w.2)
      else
        let d1 := if d.isEmpty then ⟨s.map (·.1), [], []⟩ else d
        (d1.setCol tick (d1.index.map fun t =>
          match List.lookup t s with
          | some v => PVal.fin v
          | none => PVal.nan), g)
  | .err =>
      let d1 := if d.isEmpty then ⟨dateRange, [], []⟩ else d
      let w := runWalk nf expFn (stockErrCfg pyHash tick) (baseStock tick) d1.index.length g
      (d1.setCol tick (w.1.map PVal.fin), w.2)

/-- `src/data_fetcher.py get_stock_prices`, threading the process-wide
`numpy.random` state through the per-ticker loop. -/
def get_stock_prices (nf : NormalFn) (expFn : ℚ → ℚ) (pyHash : String → Nat)
    (fetch : String → FetchOutcome) (ticks : List String) (dateRange : List Nat)
    (g : NpRng) : PdFrame × NpRng :=
  ticks.foldl (stocksStep nf expFn pyHash dateRange fetch) (⟨[], [], []⟩, g)

/-! ### Concrete inputs used by counterexamples and witnesses -/

/-- A one-column price table holding prices `[0, 1]`. -/
def c1Frame : Frame := ⟨["P"], [(0, [.fin 0]), (1, [.fin 1])]⟩

/-- A one-column price table holding prices `[0, 0]`. -/
def c2Frame : Frame := ⟨["P"], [(0, [.fin 0]), (1, [.fin 0])]⟩

/-- A fully-populated nonzero two-row price table. -/
def c2GoodFrame : Frame := ⟨["P"], [(0, [.fin 50]), (1, [.fin 51])]⟩

/-- A two-column percent-change table with one large move in each column. -/
def c3Frame : Frame :=
  ⟨["USD-INR", "EUR-INR"], [(0, [.fin 2, .fin (-3)]), (1, [.fin (1/2), .fin 2])]⟩

/-- A series whose value at the shared timestamp 0 is `+inf`. -/
def c5s1 : Series := [(0, .inf true), (1, .fin 1)]

/-- A finite partner series on the same timestamps. -/
def c5s2 : Series := [(0, .fin 1), (1, .fin 2)]

/-- An environment whose `SMTP_PORT` is set to a non-numeric string. -/
def c8BadEnv : SmtpEnv := ⟨some "smtp.example.com", some "abc", some "user", some "secret"⟩

/-- A transport that always succeeds. -/
def okTransport : String → String → Except String Unit := fun _ _ => .ok ()

/-- An alert dictionary as produced by the scan (no `'threshold'` key). -/
def c8Dict : AlertDict := ⟨"USD-INR", "2024-01-02", 2, "increase", none⟩

/-- An environment with no `SMTP_PORT` set (the default "587" applies). -/
def c8GoodEnv : SmtpEnv := ⟨some "smtp.example.com", none, some "user", some "secret"⟩

/-- An alert dictionary carrying a `'threshold'` key. -/
def c8GoodDict : AlertDict := ⟨"USD-INR", "2024-01-02", 196/100, "increase", some (3/2)⟩

/-- A concrete normal sampler used to instantiate the external parameter. -/
def nf0 : NormalFn := fun s d m v n => List.replicate n (m + v * ((s : ℚ) + (d : ℚ)))

/-- A fetch collaborator returning an empty close series for every instrument. -/
def fetchNone : String → FetchOutcome := fun _ => .ok []

/-- A two-column price table where column B is missing at timestamp 1. -/
def c10Frame : Frame :=
  ⟨["A", "B"], [(0, [.fin 1, .fin 1]), (1, [.fin 2, .nan]), (2, [.fin 3, .fin 3])]⟩

/-! ### Helper lemmas -/

theorem dropnaRows_cons (x : Nat × List PVal) (l : List (Nat × List PVal)) :
    dropnaRows (x :: l) =
      if x.2.any PVal.isnan then dropnaRows l else x :: dropnaRows l := by
  simp only [dropnaRows, List.filter_cons]
  cases h : x.2.any PVal.isnan <;> simp [h]

theorem pctCell_spec (p c : PVal) (hp : p.finNZ = true) (hc : c.finNZ = true) :
    pctCell p c = pctSpecCell p c ∧ (pctCell p c).isnan = false := by
  cases p with
  | fin a =>
    cases c with
    | fin b =>
      simp only [PVal.finNZ, decide_eq_true_eq] at hp hc
      constructor
      · simp only [pctCell, PVal.div, if_neg hp, PVal.subQ, PVal.mulQ, pctSpecCell]
        congr 1
        field_simp
      · simp [pctCell, PVal.div, if_neg hp, PVal.subQ, PVal.mulQ, PVal.isnan]
    | inf s => simp [PVal.finNZ] at hc
    | nan => simp [PVal.finNZ] at hc
  | inf s => simp [PVal.finNZ] at hp
  | nan => simp [PVal.finNZ] at hp

theorem zipWith_pct_spec (prev cur : List PVal)
    (hp : prev.all PVal.finNZ = true) (hc : cur.all PVal.finNZ = true) :
    List.zipWith pctCell prev cur = List.zipWith pctSpecCell prev cur ∧
    (List.zipWith pctCell prev cur).any PVal.isnan = false := by
  induction prev generalizing cur with
  | nil => simp
  | cons p ps ih =>
    cases cur with
    | nil => simp
    | cons c cs =>
      simp only [List.all_cons, Bool.and_eq_true] at hp hc
      obtain ⟨h1, h2⟩ := pctCell_spec p c hp.1 hc.1
      obtain ⟨h3, h4⟩ := ih cs hp.2 hc.2
      constructor
      · simp only [List.zipWith_cons_cons, h1, h3]
      · simp [List.any_cons, h2, h4]

theorem pctBody_dropna_spec (pt : Nat) (prev : List PVal) (rows : List (Nat × List PVal))
    (hp : prev.all PVal.finNZ = true)
    (h : ∀ r ∈ rows, r.2.all PVal.finNZ = true) :
    dropnaRows (pctBody prev rows) =
      (((pt, prev) :: rows).zip rows).map fun rr =>
        (rr.2.1, List.zipWith pctSpecCell rr.1.2 rr.2.2) := by
  induction rows generalizing pt prev with
  | nil => rfl
  | cons r rest ih =>
    obtain ⟨t, cur⟩ := r
    have hcur : cur.all PVal.finNZ = true := h (t, cur) (List.mem_cons_self _ _)
    have hrest : ∀ x ∈ rest, x.2.all PVal.finNZ = true :=
      fun x hx => h x (List.mem_cons_of_mem _ hx)
    obtain ⟨he, hn⟩ := zipWith_pct_spec prev cur hp hcur
    simp only [pctBody, dropnaRows_cons, hn, if_neg Bool.false_ne_true,
      List.zip_cons_cons, List.map_cons]
    rw [ih t cur hcur hrest, he]

/-! ### C1 — division-by-zero guard in the percentage-change transform -/

/-- C1: the claim states that a zero price followed by a later price yields an
undefined, excluded value, never an infinite value present in the returned
table. The code violates this: on prices `[0, 1]` pandas computes `1/0 = +inf`,
and `dropna()` removes only NaN rows, so the returned table retains the row
`(1, [+inf])`. This theorem evaluates the transform at that failing input. -/
theorem C1_zero_price_retains_infinity :
    calculate_percentage_changes (some c1Frame) =
      ⟨["P"], [(1, [PVal.inf true])]⟩ := by decide

/-! ### C2 — shape and formula of the percentage-change table -/

/-- C2 counterexample: on the fully-populated one-column table with prices
`[0, 0]` the output has 0 rows, not `max(0, rows-1) = 1`: the `0/0` cell is
NaN and its row is dropped. -/
theorem C2_counterexample :
    (calculate_percentage_changes (some c2Frame)).rows.length = 0 ∧
    max 0 (c2Frame.rows.length - 1) = 1 := by decide

/-- C2 (amended): for every well-formed price table with at least one column,
at least one row, and every price present, finite and nonzero, the transform
keeps the columns, drops row 0, and returns exactly one row per remaining
input row, whose entry for column `c` is
`(price[i] - price[i-1]) / price[i-1] * 100`. -/
theorem C2_pct_change_shape (f : Frame) (hc : f.cols ≠ []) (hr : f.rows ≠ [])
    (hlen : ∀ r ∈ f.rows, r.2.length = f.cols.length)
    (hfin : ∀ r ∈ f.rows, r.2.all PVal.finNZ = true) :
    (calculate_percentage_changes (some f)).cols = f.cols ∧
    (calculate_percentage_changes (some f)).rows = pctExpected f ∧
    (calculate_percentage_changes (some f)).rows.length = max 0 (f.rows.length - 1) := by
  have h1 : f.rows.isEmpty = false := by
    cases hrows : f.rows
    · exact absurd hrows hr
    · rfl
  have h2 : f.cols.isEmpty = false := by
    cases hcols : f.cols
    · exact absurd hcols hc
    · rfl
  have hne : f.isEmpty = false := by simp [Frame.isEmpty, h1, h2]
  obtain ⟨fc, fr⟩ := f
  simp only at h1 h2 hne hlen hfin hc hr
  cases fr with
  | nil => exact absurd rfl hr
  | cons r0 rest =>
    obtain ⟨t0, v0⟩ := r0
    have hv0 : v0.all PVal.finNZ = true := hfin (t0, v0) (List.mem_cons_self _ _)
    have hrest : ∀ x ∈ rest, x.2.all PVal.finNZ = true :=
      fun x hx => hfin x (List.mem_cons_of_mem _ hx)
    have hv0len : v0.length = fc.length := hlen (t0, v0) (List.mem_cons_self _ _)
    have hv0ne : v0 ≠ [] := by
      intro hnil
      rw [hnil] at hv0len
      cases hfc : fc
      · exact absurd hfc hc
      · rw [hfc] at hv0len; simp at hv0len
    have hnanhead : (v0.map fun _ => PVal.nan).any PVal.isnan = true := by
      cases v0 with
      | nil => exact absurd rfl hv0ne
      | cons a as => simp [PVal.isnan]
    simp only [calculate_percentage_changes, hne, Bool.false_eq_true, if_false,
      pctAll, dropnaRows_cons, hnanhead, if_true]
    rw [pctBody_dropna_spec t0 v0 rest hv0 hrest]
    refine ⟨trivial, rfl, ?_⟩
    simp only [List.length_map, List.length_zip, List.length_cons]
    omega

/-- C2 witness: the amended theorem applied to a concrete table. -/
theorem C2_pct_change_shape_witness :
    (calculate_percentage_changes (some c2GoodFrame)).cols = c2GoodFrame.cols ∧
    (calculate_percentage_changes (some c2GoodFrame)).rows = pctExpected c2GoodFrame ∧
    (calculate_percentage_changes (some c2GoodFrame)).rows.length =
      max 0 (c2GoodFrame.rows.length - 1) :=
  C2_pct_change_shape c2GoodFrame (by decide) (by decide) (by decide) (by decide)

/-! ### C5 — correlation alignment and masking -/

/-- C5 counterexample: the claim states every aligned pair with a non-finite
value is dropped and the result is undefined iff fewer than 2 aligned finite
pairs remain. On series sharing timestamps `{0, 1}` with `s1(0) = +inf`, only
1 aligned finite pair exists, yet the code does not take the undefined branch:
the mask removes only NaN, so the `+inf` pair is retained and handed to
`pearsonr`. -/
theorem C5_counterexample :
    (alignedFinite c5s1 c5s2).length < 2 ∧
    calculate_correlation c5s1 c5s2 ≠ none ∧
    ((corrKept c5s1 c5s2).all fun x => x.2.1.isFinite && x.2.2.isFinite) = false := by
  decide

/-- C5 (amended): the code aligns by intersecting timestamps and drops exactly
the aligned pairs in which either value is NaN (infinities are retained); it
takes the undefined `(nan, nan)` branch iff fewer than 2 masked pairs remain,
and otherwise delegates exactly the masked value pairs to `pearsonr`. -/
theorem C5_correlation_masking (s1 s2 : Series) :
    (calculate_correlation s1 s2 = none ↔ (corrKept s1 s2).length < 2) ∧
    (∀ ps, calculate_correlation s1 s2 = some ps →
      ps = (corrKept s1 s2).map fun x => x.2) ∧
    (∀ x ∈ corrKept s1 s2, x.2.1.isnan = false ∧ x.2.2.isnan = false) ∧
    (∀ x ∈ alignInner s1 s2, x.2.1.isnan = false → x.2.2.isnan = false →
      x ∈ corrKept s1 s2) := by
  refine ⟨?_, ?_, ?_, ?_⟩
  · by_cases h : 1 < (corrKept s1 s2).length
    · simp only [calculate_correlation, h, if_true, reduceCtorEq, false_iff]
      omega
    · simp only [calculate_correlation, h, if_false, true_iff]
      omega
  · intro ps hps
    by_cases h : 1 < (corrKept s1 s2).length
    · simp only [calculate_correlation, h, if_true, Option.some.injEq] at hps
      exact hps.symm
    · simp only [calculate_correlation, h, if_false, reduceCtorEq] at hps
  · intro x hx
    have h := (List.mem_filter.mp hx).2
    simp only [Bool.not_eq_true', Bool.or_eq_false_iff] at h
    exact h
  · intro x hx h1 h2
    exact List.mem_filter.mpr ⟨hx, by simp [h1, h2]⟩

/-- C5 witness: the amended characterisation applied to concrete series. -/
theorem C5_correlation_masking_witness :
    [(PVal.fin 1, PVal.fin 1), (PVal.fin 2, PVal.fin 2)] =
      (corrKept c5s2 c5s2).map fun x => x.2 :=
  (C5_correlation_masking c5s2 c5s2).2.1 _ (by decide)

/-! ### C6 — correlation label mapping -/

/-- C6: for a defined (non-NaN) coefficient the label is
`"{strength} {direction}"` with strength Strong iff `|c| ≥ 0.7`, Moderate iff
`0.3 ≤ |c| < 0.7`, Weak iff `|c| < 0.3`, direction Positive iff `c > 0`, and
the color follows the strength/sign grid; an undefined coefficient yields
`("Insufficient data", "gray")`. -/
theorem C6_correlation_label (c : ℚ) :
    get_correlation_label (.fin c) =
      ((if 7/10 ≤ |c| then "Strong" else if 3/10 ≤ |c| then "Moderate" else "Weak")
        ++ " " ++ (if 0 < c then "Positive" else "Negative"),
       if 7/10 ≤ |c| then (if 0 < c then "green" else "red")
       else if 3/10 ≤ |c| then (if 0 < c then "blue" else "orange") else "gray") ∧
    get_correlation_label .nan = ("Insufficient data", "gray") := by
  constructor
  · simp only [get_correlation_label, PVal.isnan, PVal.absV, PVal.geQ, PVal.gtZero,
      Bool.false_eq_true, if_false, decide_eq_true_eq]
    split_ifs <;> rfl
  · rfl

/-! ### C7 — empty and absent inputs -/

/-- C7: a `None` or empty price table yields an empty percentage-change table,
and a `None` or empty percent-change table yields an empty alert sequence; the
embedded functions are total, mirroring that the Python functions raise on no
input in their documented domain. -/
theorem C7_empty_inputs :
    calculate_percentage_changes none = emptyFrame ∧
    (∀ f : Frame, f.isEmpty = true → calculate_percentage_changes (some f) = emptyFrame) ∧
    (∀ th : ℚ, check_alerts none th = []) ∧
    (∀ (f : Frame) (th : ℚ), f.isEmpty = true → check_alerts (some f) th = []) := by
  refine ⟨rfl, fun f h => ?_, fun th => rfl, fun f th h => ?_⟩
  · simp [calculate_percentage_changes, h]
  · simp [check_alerts, h]

/-- C7 witness: the empty-input cases applied to a concrete empty frame. -/
theorem C7_empty_inputs_witness :
    calculate_percentage_changes (some ⟨["A"], []⟩) = emptyFrame ∧
    check_alerts (some ⟨["A"], []⟩) (1 : ℚ) = [] :=
  ⟨C7_empty_inputs.2.1 ⟨["A"], []⟩ (by decide),
   C7_empty_inputs.2.2.2 ⟨["A"], []⟩ 1 (by decide)⟩

/-! ### C3 and C4 — alert scan membership and ordering -/

theorem scanCell_eq (jc : Nat × String) (r : Nat × List PVal) (th : ℚ) :
    (let v := cellAt jc.1 r
     if v.absGt th then
       some (⟨jc.2, r.1, v, if v.gtZero then "increase" else "decrease"⟩ : AlertRec)
     else none) =
    (match cellAt jc.1 r with
     | .nan => none
     | v =>
       if v.absGt th then
         some (⟨jc.2, r.1, v, if v.gtZero then "increase" else "decrease"⟩ : AlertRec)
       else none) := by
  cases h : cellAt jc.1 r <;> simp [h, PVal.absGt]

theorem preAlerts_eq_spec (f : Frame) (th : ℚ) : preAlerts f th = alertScanSpec f th := by
  unfold preAlerts alertScanSpec
  congr 1
  funext jc
  congr 1
  funext r
  exact scanCell_eq jc r th

theorem preAlerts_empty (f : Frame) (th : ℚ) (h : f.isEmpty = true) : preAlerts f th = [] := by
  have h' : f.rows = [] ∨ f.cols = [] := by
    simpa [Frame.isEmpty, List.isEmpty_iff] using h
  rcases h' with h1 | h1 <;> simp [preAlerts, h1]

theorem dateDesc_trans : ∀ a b c : AlertRec, dateDesc a b → dateDesc b c → dateDesc a c := by
  intro a b c h1 h2
  simp only [dateDesc, decide_eq_true_eq] at h1 h2 ⊢
  omega

theorem dateDesc_total : ∀ a b : AlertRec, dateDesc a b || dateDesc b a := by
  intro a b
  simp only [dateDesc, Bool.or_eq_true, decide_eq_true_eq]
  omega

/-- C3: for every percent-change table and positive threshold, `check_alerts`
returns (up to the final reordering) exactly one record per (instrument, row)
pair whose defined (non-NaN) value strictly exceeds the threshold in absolute
value, carrying that instrument, the row's date, the signed value, and the
direction "increase" iff the value is positive — the permutation to the
spec-side scan list `alertScanSpec` captures both membership and multiplicity,
and the record fields are fixed by that list's construction. -/
theorem C3_alert_scan_exact (f : Frame) (th : ℚ) (hth : 0 < th) :
    (check_alerts (some f) th).Perm (alertScanSpec f th) := by
  unfold check_alerts
  by_cases h : f.isEmpty
  · simp only [h, if_true]
    rw [← preAlerts_eq_spec, preAlerts_empty f th h]
  · simp only [h, if_false]
    rw [← preAlerts_eq_spec]
    exact List.mergeSort_perm _ _

/-- C3 witness: the scan characterisation at a concrete table and threshold. -/
theorem C3_alert_scan_exact_witness :
    (check_alerts (some c3Frame) 1).Perm (alertScanSpec c3Frame 1) :=
  C3_alert_scan_exact c3Frame 1 (by norm_num)

/-- C4: the records returned by `check_alerts` are ordered descending by date,
and for every date the records carrying that date appear exactly in the order
in which the scan produced them (column scan order) — the sort is stable, not
re-sorted by instrument. -/
theorem C4_alert_ordering (f : Frame) (th : ℚ) (hth : 0 < th) :
    (check_alerts (some f) th).Pairwise (fun a b => b.date ≤ a.date) ∧
    ∀ d : Nat,
      (check_alerts (some f) th).filter (fun a => decide (a.date = d)) =
        (alertScanSpec f th).filter (fun a => decide (a.date = d)) := by
  unfold check_alerts
  by_cases h : f.isEmpty
  · simp only [h, if_true]
    exact ⟨List.Pairwise.nil, fun d => by
      rw [← preAlerts_eq_spec, preAlerts_empty f th h]⟩
  · simp only [h, if_false]
    constructor
    · have hs := List.sorted_mergeSort dateDesc_trans dateDesc_total (preAlerts f th)
      exact hs.imp fun hab => by simpa [dateDesc] using hab
    · intro d
      rw [← preAlerts_eq_spec]
      have hfil : ((preAlerts f th).filter fun a => decide (a.date = d)).Pairwise
          fun a b => dateDesc a b := by
        apply List.pairwise_of_forall_mem_list
        intro a ha b hb
        have ha2 := of_decide_eq_true (List.mem_filter.mp ha).2
        have hb2 := of_decide_eq_true (List.mem_filter.mp hb).2
        simp [dateDesc, ha2, hb2]
      have hsub : List.Sublist ((preAlerts f th).filter fun a => decide (a.date = d))
          (List.mergeSort (preAlerts f th) dateDesc) :=
        List.sublist_mergeSort dateDesc_trans dateDesc_total hfil
          (List.filter_sublist (preAlerts f th))
      have hsub2 : List.Sublist ((preAlerts f th).filter fun a => decide (a.date = d))
          ((List.mergeSort (preAlerts f th) dateDesc).filter fun a => decide (a.date = d)) := by
        have h2 := hsub.filter fun a => decide (a.date = d)
        rwa [List.filter_filter, show (fun a : AlertRec => decide (a.date = d) &&
          decide (a.date = d)) = fun a : AlertRec => decide (a.date = d) from
          funext fun a => Bool.and_self _] at h2
      have hperm : List.Perm
          ((List.mergeSort (preAlerts f th) dateDesc).filter fun a => decide (a.date = d))
          ((preAlerts f th).filter fun a => decide (a.date = d)) :=
        (List.mergeSort_perm (preAlerts f th) dateDesc).filter _
      exact (hsub2.eq_of_length hperm.length_eq.symm).symm

/-- C4 witness: the ordering and stability at a concrete table and threshold. -/
theorem C4_alert_ordering_witness :
    (check_alerts (some c3Frame) 1).Pairwise (fun a b => b.date ≤ a.date) ∧
    ∀ d : Nat,
      (check_alerts (some c3Frame) 1).filter (fun a => decide (a.date = d)) =
        (alertScanSpec c3Frame 1).filter (fun a => decide (a.date = d)) :=
  C4_alert_ordering c3Frame 1 (by norm_num)

/-! ### C10 — one column's missing value drops the whole output row -/

theorem pctCell_nan_cur (p : PVal) : pctCell p PVal.nan = PVal.nan := by
  cases p <;> rfl

theorem map_fst_pctBody (prev : List PVal) (rows : List (Nat × List PVal)) :
    (pctBody prev rows).map (·.1) = rows.map (·.1) := by
  induction rows generalizing prev with
  | nil => rfl
  | cons r rest ih =>
    obtain ⟨t1, cur⟩ := r
    simp only [pctBody, List.map_cons, ih]

theorem pctBody_nan_row (n : Nat) (prev : List PVal) (rows : List (Nat × List PVal))
    (t : Nat) (cells v : List PVal) (j : Nat)
    (hprev : prev.length = n) (hlen : ∀ r ∈ rows, r.2.length = n)
    (hpw : (rows.map (·.1)).Pairwise (· < ·))
    (hmem : (t, cells) ∈ rows) (hj : cells[j]? = some PVal.nan)
    (hv : (t, v) ∈ pctBody prev rows) : v.any PVal.isnan = true := by
  induction rows generalizing prev with
  | nil => cases hmem
  | cons r rest ih =>
    obtain ⟨t1, cur⟩ := r
    have hcur : cur.length = n := hlen (t1, cur) (List.mem_cons_self _ _)
    simp only [List.map_cons, List.pairwise_cons] at hpw
    simp only [pctBody, List.mem_cons] at hv
    rcases hv with hv | hv
    · injection hv with het hev
      rcases List.mem_cons.mp hmem with hm | hm
      · -- the NaN cell is in the current row `cur`
        injection hm with hmt hmc
        subst hmc
        have hjlt : j < cells.length := (List.getElem?_eq_some.mp hj).1
        have hjp : j < prev.length := by omega
        have hcell : v[j]? = some (pctCell (prev.getD j PVal.nan) PVal.nan) := by
          rw [hev, List.getElem?_zipWith]
          rw [List.getElem?_eq_getElem hjp, hj]
          rw [List.getD_eq_getElem prev PVal.nan hjp]
        rw [pctCell_nan_cur] at hcell
        exact List.any_eq_true.mpr ⟨PVal.nan, List.getElem?_mem hcell, rfl⟩
      · -- `t` names a later row, contradicting the strictly increasing index
        have htlt : t1 < t := hpw.1 t (List.mem_map.mpr ⟨(t, cells), hm, rfl⟩)
        omega
    · rcases List.mem_cons.mp hmem with hm | hm
      · -- the NaN row is the head, but `t` occurs among the later pct rows
        injection hm with hmt hmc
        have : t ∈ (pctBody cur rest).map (·.1) := List.mem_map.mpr ⟨(t, v), hv, rfl⟩
        rw [map_fst_pctBody] at this
        have htlt : t1 < t := hpw.1 t this
        omega
      · exact ih cur hcur (fun x hx => hlen x (List.mem_cons_of_mem _ hx)) hpw.2 hm hv

/-- C10: in `calculate_percentage_changes`, a missing (NaN) value for one
instrument at some timestamp removes that timestamp's entire row from the
output for all instruments: `dropna()` acts row-wise, so the output can have
fewer than `rows - 1` rows and one instrument's gap erases the other
instruments' defined percent changes at that date. -/
theorem C10_missing_value_drops_row (f : Frame) (hwf : f.WF)
    (t : Nat) (cells : List PVal) (j : Nat)
    (hrow : (t, cells) ∈ f.rows) (hj : cells[j]? = some PVal.nan) :
    t ∉ (calculate_percentage_changes (some f)).rows.map (·.1) := by
  obtain ⟨hlen, hpw⟩ := hwf
  have hjlt : j < cells.length := (List.getElem?_eq_some.mp hj).1
  have hclen : cells.length = f.cols.length := hlen (t, cells) hrow
  have hcolsne : f.cols.isEmpty = false := by
    cases hfc : f.cols
    · rw [hfc, List.length_nil] at hclen; omega
    · rfl
  have hrowsne : f.rows.isEmpty = false := by
    cases hfr : f.rows
    · rw [hfr] at hrow; cases hrow
    · rfl
  have hne : f.isEmpty = false := by simp [Frame.isEmpty, hcolsne, hrowsne]
  intro htmem
  obtain ⟨fc, fr⟩ := f
  simp only at hlen hpw hrow hclen hne htmem
  cases fr with
  | nil => cases hrow
  | cons r0 rest =>
    obtain ⟨t0, v0⟩ := r0
    have hv0len : v0.length = fc.length := hlen (t0, v0) (List.mem_cons_self _ _)
    simp only [calculate_percentage_changes, hne, Bool.false_eq_true, if_false] at htmem
    obtain ⟨x, hxmem, hxt⟩ := List.mem_map.mp htmem
    obtain ⟨tx, v⟩ := x
    simp only at hxt
    rw [hxt] at hxmem
    have hmemfil := List.mem_filter.mp hxmem
    have hnonan : v.any PVal.isnan = false := by
      have := hmemfil.2
      simp only [Bool.not_eq_true'] at this
      exact this
    have hmempct : (t, v) ∈ pctAll ((t0, v0) :: rest) := hmemfil.1
    simp only [pctAll, List.mem_cons] at hmempct
    simp only [List.map_cons, List.pairwise_cons] at hpw
    rcases hmempct with hh | hh
    · -- t is the first timestamp: the first pct row is all-NaN
      injection hh with het hev
      rcases List.mem_cons.mp hrow with hm | hm
      · -- the NaN row is row 0 itself
        injection hm with hmt hmc
        subst hmc
        have : v.any PVal.isnan = true := by
          rw [hev]
          cases hc : cells with
          | nil => rw [hc] at hjlt; simp at hjlt
          | cons a as => simp [PVal.isnan]
        rw [this] at hnonan
        cases hnonan
      · have htlt : t0 < t := hpw.1 t (List.mem_map.mpr ⟨(t, cells), hm, rfl⟩)
        omega
    · rcases List.mem_cons.mp hrow with hm | hm
      · -- the NaN row is row 0, yet t occurs among the later pct rows
        injection hm with hmt hmc
        have : t ∈ (pctBody v0 rest).map (·.1) := List.mem_map.mpr ⟨(t, v), hh, rfl⟩
        rw [map_fst_pctBody] at this
        have htlt : t0 < t := hpw.1 t this
        omega
      · have := pctBody_nan_row fc.length v0 rest t cells v j hv0len
          (fun x hx => hlen x (List.mem_cons_of_mem _ hx)) hpw.2 hm hj hh
        rw [this] at hnonan
        cases hnonan

/-- C10 witness: in a two-column table with column B missing at timestamp 1,
the row for timestamp 1 disappears from the output, erasing column A's defined
percent change at that date. -/
theorem C10_missing_value_drops_row_witness :
    (1 : Nat) ∉ (calculate_percentage_changes (some c10Frame)).rows.map (·.1) :=
  C10_missing_value_drops_row c10Frame (by decide) 1 [.fin 2, .nan] 1 (by decide) (by decide)

/-! ### C8 — notifier boundary behaviour -/

theorem strContains_here (a sub b : String) : strContains (a ++ (sub ++ b)) sub :=
  ⟨a, b, rfl⟩

theorem strContains_right (u t sub : String) (h : strContains t sub) :
    strContains (u ++ t) sub := by
  obtain ⟨a, b, hab⟩ := h
  exact ⟨u ++ a, b, by rw [hab, String.append_assoc]⟩

/-- C8 counterexample: the claim states the notifier never raises past its
boundary. But `int(os.getenv('SMTP_PORT', 587))` runs before the `try` block,
so with `SMTP_PORT` set to a non-numeric string and a nonempty recipient the
function raises `ValueError` instead of returning a boolean. -/
theorem C8_counterexample :
    send_email_alert c8BadEnv okTransport c8Dict "user@example.com" =
      .error "ValueError: invalid literal for int() with base 10" := by
  rfl

/-- C8 (amended): provided `SMTP_PORT` is absent or parses as an integer, the
notifier never raises: it returns failure (not an error) when no destination
is configured or any SMTP credential is missing; the rendered message contains
the instrument, direction, magnitude (absolute value to 2 decimal places),
date, and the record's threshold field; a record lacking the `'threshold'`
key fails inside the guarded region and is reported as boolean failure; and
with a full configuration a transport failure is caught and reported as a
boolean plus a diagnostic message while transport success returns true. -/
theorem C8_notifier_behaviour (env : SmtpEnv)
    (transport : String → String → Except String Unit)
    (alert : AlertDict) (recipient : String)
    (hport : (pyInt? (env.port.getD "587")).isSome = true) :
    (∃ b msgs, send_email_alert env transport alert recipient = .ok (b, msgs)) ∧
    (recipient = "" → send_email_alert env transport alert recipient = .ok (false, [])) ∧
    (alert.threshold? = none → ∀ b msgs,
      send_email_alert env transport alert recipient = .ok (b, msgs) → b = false) ∧
    (∀ th, alert.threshold? = some th →
      strContains (emailMessage alert th) alert.currency ∧
      strContains (emailMessage alert th) alert.direction ∧
      strContains (emailMessage alert th) (fmt2 |alert.change|) ∧
      strContains (emailMessage alert th) alert.date ∧
      strContains (emailMessage alert th) (pyFloatStr th)) ∧
    (∀ th port, alert.threshold? = some th →
      pyInt? (env.port.getD "587") = some port →
      recipient ≠ "" → env.server.getD "" ≠ "" → port ≠ 0 →
      env.username.getD "" ≠ "" → env.password.getD "" ≠ "" →
      (transport recipient (emailMessage alert th) = .ok () →
        send_email_alert env transport alert recipient = .ok (true, [])) ∧
      (∀ e, transport recipient (emailMessage alert th) = .error e →
        send_email_alert env transport alert recipient =
          .ok (false, ["Failed to send email alert: " ++ e]))) := by
  obtain ⟨port, hp⟩ := Option.isSome_iff_exists.mp hport
  refine ⟨?_, ?_, ?_, ?_, ?_⟩
  · by_cases hrec : recipient = ""
    · exact ⟨false, [], by simp [send_email_alert, hrec]⟩
    · unfold send_email_alert
      rw [if_neg hrec]
      simp only [hp]
      by_cases hcred : env.server.getD "" = "" ∨ port = 0 ∨
          env.username.getD "" = "" ∨ env.password.getD "" = ""
      · exact ⟨false, _, by rw [if_pos hcred]⟩
      · rw [if_neg hcred]
        cases hth : alert.threshold? with
        | none => exact ⟨false, _, rfl⟩
        | some th =>
          show ∃ b msgs,
            (match transport recipient (emailMessage alert th) with
             | Except.ok _ => Except.ok (true, ([] : List String))
             | Except.error e => Except.ok (false, ["Failed to send email alert: " ++ e])) =
            Except.ok (b, msgs)
          cases htr : transport recipient (emailMessage alert th) with
          | ok u => cases u; exact ⟨true, [], rfl⟩
          | error e => exact ⟨false, _, rfl⟩
  · intro hrec
    simp [send_email_alert, hrec]
  · intro hth b msgs hok
    by_cases hrec : recipient = ""
    · simp only [send_email_alert, hrec, if_pos] at hok
      simp only [Except.ok.injEq, Prod.mk.injEq] at hok
      exact hok.1.symm
    · unfold send_email_alert at hok
      rw [if_neg hrec] at hok
      simp only [hp] at hok
      by_cases hcred : env.server.getD "" = "" ∨ port = 0 ∨
          env.username.getD "" = "" ∨ env.password.getD "" = ""
      · rw [if_pos hcred] at hok
        simp only [Except.ok.injEq, Prod.mk.injEq] at hok
        exact hok.1.symm
      · rw [if_neg hcred] at hok
        simp only [hth] at hok
        simp only [Except.ok.injEq, Prod.mk.injEq] at hok
        exact hok.1.symm
  · intro th hth
    refine ⟨?_, ?_, ?_, ?_, ?_⟩
    · exact strContains_right _ _ _ (strContains_right _ _ _ (strContains_here _ _ _))
    · exact strContains_right _ _ _ (strContains_right _ _ _ (strContains_right _ _ _
        (strContains_right _ _ _ (strContains_here _ _ _))))
    · exact strContains_right _ _ _ (strContains_right _ _ _ (strContains_right _ _ _
        (strContains_right _ _ _ (strContains_right _ _ _ (strContains_right _ _ _
          (strContains_here _ _ _))))))
    · exact strContains_right _ _ _ (strContains_right _ _ _ (strContains_right _ _ _
        (strContains_right _ _ _ (strContains_right _ _ _ (strContains_right _ _ _
          (strContains_right _ _ _ (strContains_right _ _ _
            (strContains_here _ _ _))))))))
    · exact strContains_right _ _ _ (strContains_right _ _ _ (strContains_right _ _ _
        (strContains_right _ _ _ (strContains_right _ _ _ (strContains_right _ _ _
          (strContains_right _ _ _ (strContains_right _ _ _ (strContains_right _ _ _
            (strContains_right _ _ _ (strContains_here _ _ _))))))))))
  · intro th port' hth hp' hrec hs hpz hu hpw
    have hpp : port' = port := by rw [hp] at hp'; exact (Option.some_injective _ hp').symm
    subst hpp
    constructor
    · intro htr
      unfold send_email_alert
      rw [if_neg hrec]
      simp only [hp]
      rw [if_neg (show ¬(env.server.getD "" = "" ∨ port' = 0 ∨
        env.username.getD "" = "" ∨ env.password.getD "" = "") by tauto)]
      simp only [hth, htr]
    · intro e htr
      unfold send_email_alert
      rw [if_neg hrec]
      simp only [hp]
      rw [if_neg (show ¬(env.server.getD "" = "" ∨ port' = 0 ∨
        env.username.getD "" = "" ∨ env.password.getD "" = "") by tauto)]
      simp only [hth, htr]

/-- C8 witness: the amended behaviour at a configured environment, taking the
never-raises conjunct. -/
theorem C8_notifier_behaviour_witness :
    ∃ b msgs, send_email_alert c8GoodEnv okTransport c8GoodDict "user@example.com" =
      .ok (b, msgs) :=
  (C8_notifier_behaviour c8GoodEnv okTransport c8GoodDict "user@example.com" (by rfl)).1

/-! ### C9 — synthetic fallback generator seeding -/

/-- C9 counterexample: the claim states the seed is derived from the instrument
identifier and fed to a local generator, never a shared process-wide random
stream. But the currency no-data branch executes `np.random.seed(42)` on the
global stream: running the fetcher mutates the ambient `numpy.random` state,
and two distinct identifiers ("USD-INR" and "EUR-INR") leave it seeded with
the same constant 42. -/
theorem C9_counterexample :
    (get_exchange_rates nf0 id (fun s => s.length) fetchNone ["USD-INR"] [0, 1] ⟨7, 3⟩).2 ≠
      ⟨7, 3⟩ ∧
    (get_exchange_rates nf0 id (fun s => s.length) fetchNone ["USD-INR"] [0, 1] ⟨7, 3⟩).2.seed =
      42 ∧
    (get_exchange_rates nf0 id (fun s => s.length) fetchNone ["EUR-INR"] [0, 1] ⟨7, 3⟩).2.seed =
      42 := by
  decide

theorem ratesStep_fst_eq (nf : NormalFn) (ef : ℚ → ℚ) (ph : String → Nat)
    (dr : List Nat) (fetch : String → FetchOutcome)
    (a b : PdFrame × NpRng) (h : a.1 = b.1) (p : String) :
    (ratesStep nf ef ph dr fetch a p).1 = (ratesStep nf ef ph dr fetch b p).1 := by
  unfold ratesStep
  rw [h]
  cases fetch p with
  | ok s =>
      by_cases hs : s.isEmpty
      · simp [hs, runWalk, npNormal, npSeed]
      · simp [hs]
  | err => simp [runWalk, npNormal, npSeed]

theorem ratesFold_fst_eq (nf : NormalFn) (ef : ℚ → ℚ) (ph : String → Nat)
    (dr : List Nat) (fetch : String → FetchOutcome) (pairs : List String)
    (a b : PdFrame × NpRng) (h : a.1 = b.1) :
    (pairs.foldl (ratesStep nf ef ph dr fetch) a).1 =
      (pairs.foldl (ratesStep nf ef ph dr fetch) b).1 := by
  induction pairs generalizing a b with
  | nil => exact h
  | cons p ps ih =>
      exact ih _ _ (ratesStep_fst_eq nf ef ph dr fetch a b h p)

theorem stocksStep_fst_eq (nf : NormalFn) (ef : ℚ → ℚ) (ph : String → Nat)
    (dr : List Nat) (fetch : String → FetchOutcome)
    (a b : PdFrame × NpRng) (h : a.1 = b.1) (p : String) :
    (stocksStep nf ef ph dr fetch a p).1 = (stocksStep nf ef ph dr fetch b p).1 := by
  unfold stocksStep
  rw [h]
  cases fetch p with
  | ok s =>
      by_cases hs : s.isEmpty
      · simp [hs, runWalk, npNormal, npSeed]
      · simp [hs]
  | err => simp [runWalk, npNormal, npSeed]

theorem stocksFold_fst_eq (nf : NormalFn) (ef : ℚ → ℚ) (ph : String → Nat)
    (dr : List Nat) (fetch : String → FetchOutcome) (ticks : List String)
    (a b : PdFrame × NpRng) (h : a.1 = b.1) :
    (ticks.foldl (stocksStep nf ef ph dr fetch) a).1 =
      (ticks.foldl (stocksStep nf ef ph dr fetch) b).1 := by
  induction ticks generalizing a b with
  | nil => exact h
  | cons p ps ih =>
      exact ih _ _ (stocksStep_fst_eq nf ef ph dr fetch a b h p)

/-- C9 (amended): within one process (fixed draw function, `exp`, and hash
salt) the fetchers are reproducible — the returned table does not depend on the
ambient random-stream state, because every synthetic branch reseeds before
drawing. However the seeding writes the shared global stream, and the two
failure reasons differ not by a reason-keyed seed derivation alone: the
currency no-data path uses the constant seed 42 while the error path uses
`hash(pair) % 100`, and the two reasons use different volatility/drift (and
for stocks, mean) constants, so they generate from different configurations. -/
theorem C9_generator_reproducible :
    (∀ (nf : NormalFn) (ef : ℚ → ℚ) (ph : String → Nat) (fetch : String → FetchOutcome)
        (pairs : List String) (dr : List Nat) (g g' : NpRng),
        (get_exchange_rates nf ef ph fetch pairs dr g).1 =
          (get_exchange_rates nf ef ph fetch pairs dr g').1) ∧
    (∀ (nf : NormalFn) (ef : ℚ → ℚ) (ph : String → Nat) (fetch : String → FetchOutcome)
        (ticks : List String) (dr : List Nat) (g g' : NpRng),
        (get_stock_prices nf ef ph fetch ticks dr g).1 =
          (get_stock_prices nf ef ph fetch ticks dr g').1) ∧
    (∀ (ph : String → Nat) (pair : String), rateNoDataCfg ≠ rateErrCfg ph pair) ∧
    (∀ (ph : String → Nat) (tick : String), stockNoDataCfg ph tick ≠ stockErrCfg ph tick) := by
  refine ⟨?_, ?_, ?_, ?_⟩
  · intro nf ef ph fetch pairs dr g g'
    exact ratesFold_fst_eq nf ef ph dr fetch pairs (⟨[], [], []⟩, g) (⟨[], [], []⟩, g') rfl
  · intro nf ef ph fetch ticks dr g g'
    exact stocksFold_fst_eq nf ef ph dr fetch ticks (⟨[], [], []⟩, g) (⟨[], [], []⟩, g') rfl
  · intro ph pair h
    have hv := congrArg WalkCfg.vol h
    simp only [rateNoDataCfg, rateErrCfg] at hv
    norm_num at hv
  · intro ph tick h
    have hv := congrArg WalkCfg.mean h
    simp only [stockNoDataCfg, stockErrCfg] at hv
    norm_num at hv
